import Mathlib

/-!
Verification of the tsuru deployment/reconciliation engine.

The development shallowly embeds three source files:
* `provision/swarm/actions.go` — the process deployment pipeline
  (update-services → update-image-in-db → remove-old-services);
* `provision/kubernetes/nodecontainer.go` — node-container (daemon set)
  reconciliation;
* `provision/docker/docker.go` — the low-level container lifecycle
  primitive, in particular `container.ip()`.

External collaborators that the source calls but whose code is not part of
the embedded files (the swarm `deploy`/`removeService` convergence engine,
the generic `action` pipeline engine, `image.AppendAppImageName`) are
modelled from the specification, as explicitly noted on each definition.
-/

namespace Swarm

/-- The per-invocation pipeline arguments (`pipelineArgs` in
`provision/swarm/actions.go`).  `newProcs` and `currentProcs` are the key
sets of `newImgData.Processes` and `currentImgData.Processes`; the source
only ever uses the keys of those maps (iteration and membership), so the
metadata is embedded as its process-name list. -/
structure SwarmArgs where
  newImage : String
  newProcs : List String
  currentImage : String
  currentProcs : List String
deriving DecidableEq

/-- Outcome oracles for the external calls made by the pipeline: whether a
given `deploy`/`removeService`/`AppendAppImageName` call fails and, when it
does, which error value it produces.  The oracles stand for the behaviour
of the external cluster on this particular run. -/
structure Oracles where
  deployFails : String → String → Bool
  deployErr : String → String → String
  removeFails : String → Bool
  appendFails : Bool
  appendErr : String

/-- Observable cluster state for one app: which image each process's
Service currently runs (`none` = no Service), plus the app's recorded
image history (most recent first). -/
structure World where
  services : String → Option String
  history : List String

/-- Point update of the Service map. -/
def World.setSvc (w : World) (p : String) (v : Option String) : World :=
  { w with services := fun q => if q = p then v else w.services q }

/-- Events observable at the boundary with the external cluster: each
`deploy`, `removeService` and `AppendAppImageName` call, with the process,
image and success flag of the call. -/
inductive Event where
  | deployE (p img : String) (ok : Bool)
  | removeE (p : String) (ok : Bool)
  | appendE (img : String) (ok : Bool)
deriving DecidableEq

/-- Modelled from the spec: `deploy(client, app, processName, image)`
(§4.3 Service Convergence Engine) ensures the Service for the process runs
the given image — create if absent, replace if present with a different
image.  On failure the Service state is left as it was. -/
def deployCall (o : Oracles) (p img : String) (w : World) : World × Event × Option String :=
  if o.deployFails p img then (w, Event.deployE p img false, some (o.deployErr p img))
  else (w.setSvc p (some img), Event.deployE p img true, none)

/-- Modelled from the spec: `removeService(client, app, processName)`
(§4.3) deletes the Service for the process if present; absence is not an
error.  On failure the Service state is left as it was. -/
def removeCall (o : Oracles) (p : String) (w : World) : World × Event × Option String :=
  if o.removeFails p then (w, Event.removeE p false, some "remove failed")
  else (w.setSvc p none, Event.removeE p true, none)

/-- One iteration of the loop body of `rollbackAddedProcesses`
(actions.go:29-39): restore the process at the current image when the
current image defines it, remove its Service otherwise; an error from
either call is only logged. -/
def rollbackStep (a : SwarmArgs) (o : Oracles) (w : World) (p : String) : World × Event :=
  if p ∈ a.currentProcs then
    ((deployCall o p a.currentImage w).1, (deployCall o p a.currentImage w).2.1)
  else
    ((removeCall o p w).1, (removeCall o p w).2.1)

/-- `rollbackAddedProcesses` (actions.go:28-40): iterate the recorded
process list in order, restoring or removing each; failures are logged and
do not stop the iteration. -/
def rollbackAddedProcesses (a : SwarmArgs) (o : Oracles) : List String → World → World × List Event
  | [], w => (w, [])
  | p :: ps, w =>
    let s := rollbackStep a o w p
    let r := rollbackAddedProcesses a o ps s.1
    (r.1, s.2 :: r.2)

/-- The result of one pipeline step: the cluster state after the step, the
trace of external calls it made, and its forward result. -/
structure StepResult (α : Type) where
  world : World
  events : List Event
  res : Except String α

/-- Structural lexicographic comparison of character lists, the order Go's
`sort.Strings` uses (byte-wise less-than); proved below to agree with the
lexicographic order `≤` on `String`. -/
def strLtCore : List Char → List Char → Bool
  | [], [] => false
  | [], _ :: _ => true
  | _ :: _, [] => false
  | a :: as, b :: bs => if a < b then true else if b < a then false else strLtCore as bs

/-- `s` sorts no later than `t` in Go's `sort.Strings` order. -/
def strLe (s t : String) : Bool := ! strLtCore t.data s.data

/-- The deterministic deployment order of `updateServices.Forward`
(actions.go:51-54): the new image's process names sorted ascending
(Go `sort.Strings`, lexicographic). -/
def ssort (l : List String) : List String :=
  List.insertionSort (fun s t => strLe s t) l

/-- The deployment loop of `updateServices.Forward` (actions.go:55-61):
deploy each process at the new image in order, recording successes in
`deployed`; stop at the first failure, recording its error. -/
def deployLoop (a : SwarmArgs) (o : Oracles) :
    List String → World → World × List Event × List String × Option String
  | [], w => (w, [], [], none)
  | p :: ps, w =>
    let c := deployCall o p a.newImage w
    match c.2.2 with
    | some e => (c.1, [c.2.1], [], some e)
    | none =>
      let r := deployLoop a o ps c.1
      (r.1, c.2.1 :: r.2.1, p :: r.2.2.1, r.2.2.2)

/-- `updateServices.Forward` (actions.go:44-67): sort the new image's
process names, deploy them in order; on the first failure roll back the
successfully deployed ones and return the deployment error; on success
return the deployed list. -/
def updateServicesForward (a : SwarmArgs) (o : Oracles) (w : World) : StepResult (List String) :=
  let dl := deployLoop a o (ssort a.newProcs) w
  match dl.2.2.2 with
  | none => ⟨dl.1, dl.2.1, Except.ok dl.2.2.1⟩
  | some e =>
    let rb := rollbackAddedProcesses a o dl.2.2.1 dl.1
    ⟨rb.1, dl.2.1 ++ rb.2, Except.error e⟩

/-- `updateServices.Backward` (actions.go:68-72): roll back the process
list recorded by the forward step. -/
def updateServicesBackward (a : SwarmArgs) (o : Oracles) (deployed : List String) (w : World) :
    World × List Event :=
  rollbackAddedProcesses a o deployed w

/-- `updateImageInDB.Forward` (actions.go:77-84).  The call
`image.AppendAppImageName(app, newImage)` is modelled from the spec (§6):
it durably records the new image as the latest for the app; here it
prepends to `history`. -/
def updateImageInDBForward (a : SwarmArgs) (o : Oracles) (w : World) : StepResult Unit :=
  if o.appendFails then ⟨w, [Event.appendE a.newImage false], Except.error o.appendErr⟩
  else ⟨{ w with history := a.newImage :: w.history },
        [Event.appendE a.newImage true], Except.ok ()⟩

/-- The set difference `old.Difference(new)` of `removeOldServices`
(actions.go:91-93), iterated in the order of the current image's process
list (Go iterates the set in unspecified order; the order does not affect
the resulting state since each removal touches a distinct process). -/
def oldMinusNew (a : SwarmArgs) : List String :=
  a.currentProcs.filter (fun p => ¬ p ∈ a.newProcs)

/-- The removal loop of `removeOldServices.Forward` (actions.go:93-98):
remove each Service; an error is logged and ignored, the loop continues. -/
def removeLoop (o : Oracles) : List String → World → World × List Event
  | [], w => (w, [])
  | p :: ps, w =>
    let c := removeCall o p w
    let r := removeLoop o ps c.1
    (r.1, c.2.1 :: r.2)

/-- `removeOldServices.Forward` (actions.go:89-100): remove every Service
of a process present in the current image but absent from the new one;
always returns success. -/
def removeOldServicesForward (a : SwarmArgs) (o : Oracles) (w : World) : StepResult Unit :=
  let r := removeLoop o (oldMinusNew a) w
  ⟨r.1, r.2, Except.ok ()⟩

/-- Modelled from the spec: the action pipeline execution semantics (§4.2)
for the concrete pipeline update-services → update-image-in-db →
remove-old-services.  Steps run in order; a forward failure stops the run
and invokes the Backward of every previously succeeded step in reverse
order (only update-services has a Backward); the overall result is the
first forward error, or success. -/
def runPipeline (a : SwarmArgs) (o : Oracles) (w : World) : StepResult Unit :=
  let s1 := updateServicesForward a o w
  match s1.res with
  | Except.error e => ⟨s1.world, s1.events, Except.error e⟩
  | Except.ok deployed =>
    let s2 := updateImageInDBForward a o s1.world
    match s2.res with
    | Except.error e =>
      let rb := updateServicesBackward a o deployed s2.world
      ⟨rb.1, s1.events ++ s2.events ++ rb.2, Except.error e⟩
    | Except.ok _ =>
      let s3 := removeOldServicesForward a o s2.world
      ⟨s3.world, s1.events ++ s2.events ++ s3.events, Except.ok ()⟩

/-- The value the rollback of one process converges its Service to:
`some v` when the restore/remove call succeeds (the Service then maps to
`v`), `none` when the call fails (the Service is left untouched). -/
def rollbackVal (a : SwarmArgs) (o : Oracles) (q : String) : Option (Option String) :=
  if q ∈ a.currentProcs then
    if o.deployFails q a.currentImage then none else some (some a.currentImage)
  else
    if o.removeFails q then none else some none

/-- The external call the rollback issues for one process: a redeploy at
the current image when the current image defines the process, a Service
removal otherwise. -/
def rollbackEv (a : SwarmArgs) (o : Oracles) (p : String) : Event :=
  if p ∈ a.currentProcs then Event.deployE p a.currentImage (! o.deployFails p a.currentImage)
  else Event.removeE p (! o.removeFails p)

end Swarm

namespace K8s

/-- `servicecommon.PoolFilter` (used at nodecontainer.go:53-59): an
Include list and an Exclude list of pool names. -/
structure PoolFilter where
  Include : List String
  Exclude : List String
deriving DecidableEq

/-- The node-selector operator chosen at nodecontainer.go:54/57
(`v1.NodeSelectorOpNotIn` / `v1.NodeSelectorOpIn`). -/
inductive NodeSelectorOperator where
  | opIn
  | opNotIn
deriving DecidableEq

/-- `v1.NodeSelectorRequirement` as built at nodecontainer.go:50-59. -/
structure NodeSelectorRequirement where
  key : String
  operator : NodeSelectorOperator
  values : List String
deriving DecidableEq

/-- `v1.NodeSelectorTerm`. -/
structure NodeSelectorTerm where
  matchExpressions : List NodeSelectorRequirement
deriving DecidableEq

/-- `v1.NodeSelector`. -/
structure NodeSelector where
  nodeSelectorTerms : List NodeSelectorTerm
deriving DecidableEq

/-- `v1.NodeAffinity` (the `RequiredDuringSchedulingIgnoredDuringExecution`
pointer field). -/
structure NodeAffinity where
  requiredDuringScheduling : Option NodeSelector
deriving DecidableEq

/-- `v1.Affinity` (the `NodeAffinity` pointer field). -/
structure Affinity where
  nodeAffinity : Option NodeAffinity
deriving DecidableEq

/-- A Go `map[string]string`, which may be `nil` (`none`) or a (possibly
empty) map (`some` of its entries).  Every map comparison the embedded
code performs (`reflect.DeepEqual` at nodecontainer.go:80) compares an
arbitrary existing map against a computed map with at most one entry, and
on such pairs plain equality of this representation agrees with Go's
`reflect.DeepEqual` (which distinguishes `nil` from empty). -/
def KVMap : Type := Option (List (String × String))

instance : DecidableEq KVMap := by
  unfold KVMap
  infer_instance

/-- The constant `alphaAffinityAnnotation` (nodecontainer.go:27). -/
def alphaAffinityKey : String := "scheduler.alpha.kubernetes.io/affinity"

/-- Modelled from the spec: the constant `provision.LabelNodePool`, the
pool label key used as the node-selection requirement key
(nodecontainer.go:51); its concrete value is outside the embedded files. -/
def labelNodePool : String := "tsuru.io/pool"

/-- Stand-in for `json.Marshal` of the affinity rule
(nodecontainer.go:72-77): a fixed, deterministic serialization of the
affinity structure.  The embedded code only ever stores the serialized
text in an annotation map and compares it for equality, so only
determinism of the encoding matters, never its exact shape. -/
def marshalReq (r : NodeSelectorRequirement) : String :=
  let op := match r.operator with
    | NodeSelectorOperator.opIn => "In"
    | NodeSelectorOperator.opNotIn => "NotIn"
  "req[" ++ r.key ++ ";" ++ op ++ ";" ++ String.intercalate "," r.values ++ "]"

/-- Serialization of one `NodeSelectorTerm`. -/
def marshalTerm (t : NodeSelectorTerm) : String :=
  "term[" ++ String.intercalate "|" (t.matchExpressions.map marshalReq) ++ "]"

/-- Serialization of a whole `v1.Affinity` value. -/
def marshalAffinity (a : Affinity) : String :=
  match a.nodeAffinity with
  | none => "affinity[]"
  | some na =>
    match na.requiredDuringScheduling with
    | none => "affinity[nodeAffinity[]]"
    | some sel =>
      "affinity[nodeAffinity[required[" ++
        String.intercalate "|" (sel.nodeSelectorTerms.map marshalTerm) ++ "]]]"

/-- The node-selection requirement computed at nodecontainer.go:50-59:
key is the pool label; operator "not in" over `Exclude` when `Exclude` is
non-empty, otherwise operator "in" over `Include`. -/
def computeNodeReq (filter : PoolFilter) : NodeSelectorRequirement :=
  if filter.Exclude.length > 0 then
    ⟨labelNodePool, NodeSelectorOperator.opNotIn, filter.Exclude⟩
  else
    ⟨labelNodePool, NodeSelectorOperator.opIn, filter.Include⟩

/-- The affinity rule computed at nodecontainer.go:61-71: present exactly
when the chosen value set is non-empty, and then a single required
node-selector term holding exactly the computed requirement. -/
def computeAffinity (filter : PoolFilter) : Option Affinity :=
  let nodeReq := computeNodeReq filter
  if nodeReq.values.length ≠ 0 then
    some ⟨some ⟨some ⟨[⟨[nodeReq]⟩]⟩⟩⟩
  else
    none

/-- The affinity annotation map computed at nodecontainer.go:60-78: starts
as an empty (non-nil) map and gains the single serialized-affinity entry
exactly when the affinity rule was built. -/
def computedAnns (filter : PoolFilter) : KVMap :=
  match computeAffinity filter with
  | none => some []
  | some aff => some [(alphaAffinityKey, marshalAffinity aff)]

/-- The fields of `metav1.ObjectMeta` the embedded code reads or writes. -/
structure ObjectMeta where
  name : String
  nspace : String
  labels : KVMap
  annotations : KVMap
deriving DecidableEq

/-- `v1.EnvVar`. -/
structure EnvVar where
  name : String
  value : String
deriving DecidableEq

/-- `v1.Volume` with a host-path source (nodecontainer.go:115-122). -/
structure Volume where
  name : String
  hostPath : String
deriving DecidableEq

/-- `v1.VolumeMount` (nodecontainer.go:123-131). -/
structure VolumeMount where
  name : String
  mountPath : String
  readOnly : Bool
deriving DecidableEq

/-- `v1.SecurityContext` (only the `Privileged` pointer is ever set). -/
structure SecurityContext where
  privileged : Option Bool
deriving DecidableEq

/-- `v1.RestartPolicy` values used at nodecontainer.go:142-148. -/
inductive RestartPolicy where
  | always
  | onFailure
  | never
deriving DecidableEq

/-- The fields of `v1.Container` set at nodecontainer.go:176-186. -/
structure Container where
  name : String
  image : String
  command : List String
  args : List String
  env : List EnvVar
  workingDir : String
  tty : Bool
  volumeMounts : List VolumeMount
  securityContext : Option SecurityContext
deriving DecidableEq

/-- The fields of `v1.PodSpec` set at nodecontainer.go:170-188. -/
structure PodSpec where
  affinity : Option Affinity
  volumes : List Volume
  restartPolicy : RestartPolicy
  hostNetwork : Bool
  containers : List Container
deriving DecidableEq

/-- `v1.PodTemplateSpec`. -/
structure PodTemplateSpec where
  metadata : ObjectMeta
  spec : PodSpec
deriving DecidableEq

/-- `extensions.DaemonSetUpdateStrategy` (nodecontainer.go:159-164). -/
structure DaemonSetUpdateStrategy where
  strategyType : String
  rollingUpdateMaxUnavailable : Option String
deriving DecidableEq

/-- The fields of `extensions.DaemonSetSpec` set at
nodecontainer.go:155-190. -/
structure DaemonSetSpec where
  selector : Option KVMap
  updateStrategy : DaemonSetUpdateStrategy
  template : PodTemplateSpec
deriving DecidableEq

/-- `extensions.DaemonSet`. -/
structure DaemonSet where
  metadata : ObjectMeta
  spec : DaemonSetSpec
deriving DecidableEq

/-- The `Config` part of `nodecontainer.NodeContainerConfig` read by the
embedded code (the type itself lives outside the embedded files; fields
are modelled from the spec's NodeContainerConfig data model). -/
structure ContainerConfigPart where
  Labels : KVMap
  Env : List String
  Entrypoint : List String
  Cmd : List String
  WorkingDir : String
  Tty : Bool
deriving DecidableEq

/-- The `HostConfig` part of `nodecontainer.NodeContainerConfig` read by
the embedded code.  `RestartPolicyName` is `HostConfig.RestartPolicy.Name`. -/
structure HostConfigPart where
  Binds : List String
  Privileged : Bool
  RestartPolicyName : String
  NetworkMode : String
deriving DecidableEq

/-- `nodecontainer.NodeContainerConfig` as read by the embedded code.
`image` models the result of the external method `config.Image()`. -/
structure NodeContainerConfig where
  Name : String
  image : String
  Config : ContainerConfigPart
  HostConfig : HostConfigPart
deriving DecidableEq

/-- Modelled from the spec: the constant `nodecontainer.BsDefaultName`,
the designated default system-monitor container name
(nodecontainer.go:106); its concrete value is outside the embedded files. -/
def bsDefaultName : String := "big-sibling"

/-- The three extra log/docker-socket binds appended for the default
system-monitor container (nodecontainer.go:107-111). -/
def extraBsBinds : List String :=
  ["/var/log:/var/log:rw",
   "/var/lib/docker/containers:/var/lib/docker/containers:ro",
   "/mnt/sda1/var/lib/docker/containers:/mnt/sda1/var/lib/docker/containers:ro"]

/-- Modelled from the spec: `daemonSetName(config.Name, pool)` — the
deterministic daemon-object name (nodecontainer.go:42); the function's
body is outside the embedded files. -/
def daemonSetName (name pool : String) : String :=
  "node-container-" ++ name ++ (if pool = "" then "" else "-pool-" ++ pool)

/-- Modelled from the spec: `provision.NodeContainerLabels(...).ToLabels()`
(nodecontainer.go:89-95,167) — labels derived from the config name, pool,
provisioner and custom labels; the function's body is outside the embedded
files. -/
def nodeContainerAllLabels (name pool : String) (custom : KVMap) : KVMap :=
  some ([("tsuru.io/node-container-name", name),
         ("tsuru.io/node-container-pool", pool),
         ("tsuru.io/provisioner", "kubernetes")] ++ custom.getD [])

/-- Modelled from the spec: `ls.ToNodeContainerSelector()`
(nodecontainer.go:157) — the label selector derived from the config name
and pool; the function's body is outside the embedded files. -/
def nodeContainerSelector (name pool : String) : KVMap :=
  some [("tsuru.io/node-container-name", name),
        ("tsuru.io/node-container-pool", pool)]

/-- Go's `strings.SplitN(s, sep, n)` for `n > 0`: at most `n` pieces, the
last piece holding the unsplit remainder. -/
def splitN (s sep : String) (n : Nat) : List String :=
  let parts := s.splitOn sep
  if parts.length ≤ n then parts
  else parts.take (n - 1) ++ [String.intercalate sep (parts.drop (n - 1))]

/-- The env-var parsing at nodecontainer.go:96-103: split on the first
"="; a missing "=" means empty value. -/
def parseEnvVar (v : String) : EnvVar :=
  let parts := splitN v "=" 2
  ⟨parts.headD "", if 1 < parts.length then (parts.getD 1 "") else ""⟩

/-- The bind parsing at nodecontainer.go:113-134: "src:dst[:mode]" bind
string number `i` becomes a host-path volume named `volume-i` plus a
mount whose path is the second piece (when present) and which is
read-only exactly when a third piece equals "ro". -/
def bindVolume (i : Nat) (b : String) : Volume × VolumeMount :=
  let parts := splitN b ":" 3
  let vol : Volume := ⟨"volume-" ++ toString i, parts.headD ""⟩
  let mount : VolumeMount :=
    ⟨vol.name,
     if 1 < parts.length then parts.getD 1 "" else "",
     if 2 < parts.length then parts.getD 2 "" = "ro" else false⟩
  (vol, mount)

/-- The restart-policy mapping at nodecontainer.go:142-148.  The matched
names are the `go-dockerclient` constants `RestartOnFailure(0).Name`
("on-failure") and `NeverRestart().Name` ("no"); anything else maps to the
default "always". -/
def mapRestartPolicy (name : String) : RestartPolicy :=
  if name = "on-failure" then RestartPolicy.onFailure
  else if name = "no" then RestartPolicy.never
  else RestartPolicy.always

/-- The daemon-object construction of the full-reconciliation path
(nodecontainer.go:89-191), applied to the configuration as it stands
after the bind-append of lines 106-112. -/
def buildDaemonSet (nspace : String) (config : NodeContainerConfig) (pool : String)
    (affinity : Option Affinity) (anns : KVMap) : DaemonSet :=
  let envVars := config.Config.Env.map parseEnvVar
  let pairs := config.HostConfig.Binds.enum.map (fun x => bindVolume x.1 x.2)
  let secCtx : Option SecurityContext :=
    if config.HostConfig.Privileged then some ⟨some true⟩ else none
  { metadata := ⟨daemonSetName config.Name pool, nspace, none, none⟩,
    spec :=
      { selector := some (nodeContainerSelector config.Name pool),
        updateStrategy := ⟨"RollingUpdate", some "20%"⟩,
        template :=
          { metadata := ⟨"", "", nodeContainerAllLabels config.Name pool config.Config.Labels,
                         anns⟩,
            spec :=
              { affinity := affinity,
                volumes := pairs.map Prod.fst,
                restartPolicy := mapRestartPolicy config.HostConfig.RestartPolicyName,
                hostNetwork := config.HostConfig.NetworkMode = "host",
                containers :=
                  [⟨config.Name, config.image, config.Config.Entrypoint, config.Config.Cmd,
                    envVars, config.Config.WorkingDir, config.Config.Tty,
                    pairs.map Prod.snd, secCtx⟩] } } } }

/-- A call issued against the cluster API by the reconciliation. -/
inductive K8sOp where
  | update (ds : DaemonSet)
  | create (ds : DaemonSet)
deriving DecidableEq

/-- The observable outcome of `deployNodeContainerForCluster`: the cluster
API call it issues (if any) and the configuration object as the caller
sees it after the call returns (the configuration is passed by pointer in
Go, so an assignment to `config.HostConfig.Binds` inside the function is
visible to the caller). -/
structure DeployOutcome where
  op : Option K8sOp
  configAfter : NodeContainerConfig
deriving DecidableEq

/-- `deployNodeContainerForCluster` (nodecontainer.go:41-198).  `oldDs` is
the result of the daemon-object fetch of lines 42-49 (`none` = not found);
a fetch error other than not-found aborts before any of the embedded
logic runs and is therefore not part of the model.  The function issues at
most one Update/Create call; the call's own success is external. -/
def deployNodeContainerForCluster (nspace : String) (oldDs : Option DaemonSet)
    (config : NodeContainerConfig) (pool : String) (filter : PoolFilter)
    (placementOnly : Bool) : DeployOutcome :=
  let affinity := computeAffinity filter
  let anns := computedAnns filter
  match oldDs with
  | some old =>
    if placementOnly then
      if old.spec.template.metadata.annotations = anns ∧
         old.spec.template.spec.affinity = affinity then
        ⟨none, config⟩
      else
        ⟨some (K8sOp.update
          { old with spec :=
            { old.spec with template :=
              { metadata := { old.spec.template.metadata with annotations := anns },
                spec := { old.spec.template.spec with affinity := affinity } } } }),
         config⟩
    else
      let config' :=
        if config.Name = bsDefaultName then
          { config with HostConfig :=
            { config.HostConfig with Binds := config.HostConfig.Binds ++ extraBsBinds } }
        else config
      ⟨some (K8sOp.update (buildDaemonSet nspace config' pool affinity anns)), config'⟩
  | none =>
    let config' :=
      if config.Name = bsDefaultName then
        { config with HostConfig :=
          { config.HostConfig with Binds := config.HostConfig.Binds ++ extraBsBinds } }
      else config
    ⟨some (K8sOp.create (buildDaemonSet nspace config' pool affinity anns)), config'⟩

/-- A concrete pool filter used as a sample reconciliation input. -/
def sampleFilter : PoolFilter := ⟨[], ["p1"]⟩

/-- A concrete node-container configuration used as a sample input. -/
def sampleConfig : NodeContainerConfig :=
  ⟨"sysmon", "img:1", ⟨none, [], [], [], "", false⟩, ⟨[], false, "", ""⟩⟩

/-- A concrete existing daemon object whose pod-template affinity
annotations and affinity already equal the values computed for
`sampleFilter`. -/
def sampleDs : DaemonSet :=
  ⟨⟨"node-container-sysmon-pool-p1", "ns", none, none⟩,
   ⟨none, ⟨"RollingUpdate", some "20%"⟩,
    ⟨⟨"", "", none, computedAnns sampleFilter⟩,
     ⟨computeAffinity sampleFilter, [], RestartPolicy.always, false, []⟩⟩⟩⟩

/-- `sampleDs` with a nil pod-template annotation map, so that it diverges
from the values computed for `sampleFilter`. -/
def sampleDsDivergent : DaemonSet :=
  ⟨⟨"node-container-sysmon-pool-p1", "ns", none, none⟩,
   ⟨none, ⟨"RollingUpdate", some "20%"⟩,
    ⟨⟨"", "", none, none⟩,
     ⟨none, [], RestartPolicy.always, false, []⟩⟩⟩⟩

/-- A concrete configuration carrying the default system-monitor name. -/
def bsSampleConfig : NodeContainerConfig :=
  ⟨bsDefaultName, "img:1", ⟨none, [], [], [], "", false⟩,
   ⟨["/a:/a:rw"], false, "", ""⟩⟩

end K8s

namespace Docker

/-- The shape of a decoded JSON value, as seen by the Go code after
`json.Unmarshal` into `map[string]interface{}`: `null`, a string, an
object, or any other JSON value (number, boolean, array), which the code
never distinguishes further before its unchecked type assertions. -/
inductive JVal where
  | null
  | str (s : String)
  | obj (fields : List (String × JVal))
  | other

/-- The outcome of `container.ip()` (docker.go:42-74): a successful
address, a returned error (the Go dynamic error kind plus its message),
or a runtime panic (Go's unchecked type assertions at docker.go:65-66). -/
inductive IpResult where
  | ok (ip : String)
  | err (kind msg : String)
  | panicked (reason : String)
deriving DecidableEq

/-- The dynamic kind of every error built with `errors.New`
(docker.go:52,58,63,70). -/
def errorStringKind : String := "errors.errorString"

/-- docker.go:50: the message of the inspect-failure error (stored as the
raw format string: the code never substitutes the verbs). -/
def msgInspect : String := "error(%s) trying to inspect docker instance(%s) to get ipaddress"

/-- docker.go:56: the message of the JSON-parse-failure error. -/
def msgParse : String := "error(%s) parsing json from docker when trying to get ipaddress"

/-- docker.go:61: the message of the missing-NetworkSettings error. -/
def msgMissingNS : String := "Error when getting container information. NetworkSettings is missing."

/-- docker.go:68: the message of the empty-address error. -/
def msgEmpty : String := "error: Can't get ipaddress..."

/-- `container.ip()` (docker.go:42-74).  `binConf` is the result of
`config.GetString("docker:binary")` (an external configuration lookup;
its error is returned as-is with its own kind).  `inspectRes` is the
combined boundary outcome of `runCmd(docker, "inspect", id)` followed by
`json.Unmarshal` of its output: `Except.error` = the inspect call failed;
`Except.ok none` = inspect succeeded but the output did not unmarshal into
a JSON object; `Except.ok (some fields)` = the decoded top-level object. -/
def containerIp (binConf : Except String String)
    (inspectRes : Except String (Option (List (String × JVal)))) : IpResult :=
  match binConf with
  | Except.error e => IpResult.err "config" e
  | Except.ok _ =>
    match inspectRes with
    | Except.error _ => IpResult.err errorStringKind msgInspect
    | Except.ok none => IpResult.err errorStringKind msgParse
    | Except.ok (some fields) =>
      match fields.lookup "NetworkSettings" with
      | none => IpResult.err errorStringKind msgMissingNS
      | some JVal.null => IpResult.err errorStringKind msgMissingNS
      | some (JVal.obj ns) =>
        match ns.lookup "IpAddress" with
        | some (JVal.str s) =>
          if s = "" then IpResult.err errorStringKind msgEmpty else IpResult.ok s
        | some _ => IpResult.panicked "interface conversion: interface is not string"
        | none => IpResult.panicked "interface conversion: nil is not string"
      | some _ => IpResult.panicked "interface conversion: interface is not map"

end Docker

namespace Swarm

/-- Concrete pipeline arguments in which deploying the sorted-second
process "worker" fails: new image "img2" declares processes worker and
web, current image "img1" declares web only. -/
def failArgs : SwarmArgs := ⟨"img2", ["worker", "web"], "img1", ["web"]⟩

/-- Oracles under which only the deploy of "worker" at "img2" fails. -/
def failOracles : Oracles :=
  ⟨fun p img => p == "worker" && img == "img2", fun _ _ => "boom",
   fun _ => false, false, "append failed"⟩

/-- A cluster state in which every process currently runs "img1". -/
def allImg1World : World := ⟨fun _ => some "img1", []⟩

/-- Pipeline arguments for a fully successful run: new image "img2"
declares web only, current image "img1" declares web and worker. -/
def shrinkArgs : SwarmArgs := ⟨"img2", ["web"], "img1", ["web", "worker"]⟩

/-- Oracles under which every deploy and append succeeds but removing the
Service of "worker" fails (the failure is logged and swallowed). -/
def badRemoveOracles : Oracles :=
  ⟨fun _ _ => false, fun _ _ => "e", fun p => p == "worker", false, "append failed"⟩

/-- A cluster state holding Services for web and worker (the current
image's processes) and additionally for a stray process "stray" that
neither image declares. -/
def strayWorld : World :=
  ⟨fun q => if q == "web" || q == "worker" then some "img1"
            else if q == "stray" then some "img0" else none, []⟩

/-- Pipeline arguments for a successful grow run: new image "img2"
declares web and worker, current image "img1" declares web only. -/
def growArgs : SwarmArgs := ⟨"img2", ["web", "worker"], "img1", ["web"]⟩

/-- Oracles under which every external call succeeds. -/
def allOkOracles : Oracles :=
  ⟨fun _ _ => false, fun _ _ => "e", fun _ => false, false, "append failed"⟩

/-- A cluster state whose Services are exactly those of the current image
of `growArgs`: web runs "img1", nothing else runs. -/
def webOnlyWorld : World :=
  ⟨fun q => if q ∈ (["web"] : List String) then some "img1" else none, []⟩

/-- Pipeline arguments whose single new process "api" will fail to deploy
under `failApiOracles`. -/
def apiArgs : SwarmArgs := ⟨"img9", ["api"], "img8", []⟩

/-- Oracles under which the deploy of "api" fails. -/
def failApiOracles : Oracles :=
  ⟨fun p _ => p == "api", fun _ _ => "boom", fun _ => false, false, "append failed"⟩

/-- A cluster state with no Services and image history ["img8"]. -/
def img8World : World := ⟨fun _ => none, ["img8"]⟩

theorem setSvc_services (w : World) (p : String) (v : Option String) (q : String) :
    (w.setSvc p v).services q = if q = p then v else w.services q := rfl

theorem setSvc_history (w : World) (p : String) (v : Option String) :
    (w.setSvc p v).history = w.history := rfl

theorem strLtCore_iff (as bs : List Char) : strLtCore as bs = true ↔ as < bs := by
  induction as generalizing bs with
  | nil =>
    cases bs with
    | nil =>
      simp only [strLtCore, Bool.false_eq_true, false_iff]
      intro h; cases h
    | cons b bs =>
      simp only [strLtCore, true_iff]
      exact List.Lex.nil
  | cons a as ih =>
    cases bs with
    | nil =>
      simp only [strLtCore, Bool.false_eq_true, false_iff]
      intro h; cases h
    | cons b bs =>
      simp only [strLtCore]
      by_cases hab : a < b
      · simp only [hab, if_true, true_iff]
        exact List.Lex.rel hab
      · by_cases hba : b < a
        · simp only [hab, hba, if_false, if_true, Bool.false_eq_true, false_iff]
          intro h
          cases h with
          | cons h => exact lt_irrefl a hba
          | rel h => exact hab h
        · have heq : a = b := le_antisymm (not_lt.mp hba) (not_lt.mp hab)
          subst heq
          simp only [hab, if_false, ih]
          constructor
          · intro h; exact List.Lex.cons h
          · intro h
            cases h with
            | cons h => exact h
            | rel h => exact absurd h hab

theorem strLe_iff (s t : String) : strLe s t = true ↔ s ≤ t := by
  rw [strLe, Bool.not_eq_true', ← Bool.not_eq_true, strLtCore_iff]
  rw [String.le_iff_toList_le, ← not_lt]
  exact Iff.rfl

instance strLeIsTotal : IsTotal String (fun s t => strLe s t = true) := by
  constructor
  intro s t
  rcases le_total s t with h | h
  · exact Or.inl ((strLe_iff s t).mpr h)
  · exact Or.inr ((strLe_iff t s).mpr h)

instance strLeIsTrans : IsTrans String (fun s t => strLe s t = true) := by
  constructor
  intro s t u hst htu
  exact (strLe_iff s u).mpr (le_trans ((strLe_iff s t).mp hst) ((strLe_iff t u).mp htu))

theorem ssort_sorted (l : List String) : List.Sorted (fun s t => s ≤ t) (ssort l) := by
  have h := List.sorted_insertionSort (fun s t => strLe s t = true) l
  exact h.imp (fun hab => (strLe_iff _ _).mp hab)

theorem ssort_mem (q : String) (l : List String) : q ∈ ssort l ↔ q ∈ l :=
  List.mem_insertionSort _

end Swarm

namespace Swarm

theorem deployLoop_history (a : SwarmArgs) (o : Oracles) :
    ∀ (ps : List String) (w : World), (deployLoop a o ps w).1.history = w.history := by
  intro ps
  induction ps with
  | nil => intro w; rfl
  | cons p ps ih =>
    intro w
    cases h : o.deployFails p a.newImage with
    | true => simp [deployLoop, deployCall, h]
    | false => simp [deployLoop, deployCall, h, ih, setSvc_history]

theorem deployLoop_err_none_iff (a : SwarmArgs) (o : Oracles) :
    ∀ (ps : List String) (w : World),
      (deployLoop a o ps w).2.2.2 = none ↔ ∀ p ∈ ps, o.deployFails p a.newImage = false := by
  intro ps
  induction ps with
  | nil => intro w; simp [deployLoop]
  | cons p ps ih =>
    intro w
    cases h : o.deployFails p a.newImage with
    | true => simp [deployLoop, deployCall, h]
    | false => simp [deployLoop, deployCall, h, ih]

theorem deployLoop_ok (a : SwarmArgs) (o : Oracles) :
    ∀ (ps : List String) (w : World),
      (∀ p ∈ ps, o.deployFails p a.newImage = false) →
      (deployLoop a o ps w).2.2.1 = ps ∧
      (deployLoop a o ps w).2.1 = ps.map (fun p => Event.deployE p a.newImage true) ∧
      ∀ q, (deployLoop a o ps w).1.services q =
        if q ∈ ps then some a.newImage else w.services q := by
  intro ps
  induction ps with
  | nil => intro w _; simp [deployLoop]
  | cons p ps ih =>
    intro w hall
    have hp : o.deployFails p a.newImage = false := hall p (List.mem_cons_self p ps)
    have hps : ∀ q ∈ ps, o.deployFails q a.newImage = false :=
      fun q hq => hall q (List.mem_cons_of_mem p hq)
    have ihw := ih (w.setSvc p (some a.newImage)) hps
    refine ⟨?_, ?_, ?_⟩
    · simp [deployLoop, deployCall, hp, ihw.1]
    · simp [deployLoop, deployCall, hp, ihw.2.1]
    · intro q
      have hq := ihw.2.2 q
      by_cases hmem : q ∈ ps
      · simp [deployLoop, deployCall, hp, hq, hmem]
      · by_cases hqp : q = p
        · subst hqp
          simp [deployLoop, deployCall, hp, hq, hmem, setSvc_services]
        · simp [deployLoop, deployCall, hp, hq, hmem, hqp, setSvc_services]

theorem deployLoop_fail (a : SwarmArgs) (o : Oracles) :
    ∀ (done : List String) (pk : String) (rest : List String) (w : World),
      (∀ p ∈ done, o.deployFails p a.newImage = false) →
      o.deployFails pk a.newImage = true →
      (deployLoop a o (done ++ pk :: rest) w).2.2.2 = some (o.deployErr pk a.newImage) ∧
      (deployLoop a o (done ++ pk :: rest) w).2.2.1 = done ∧
      (deployLoop a o (done ++ pk :: rest) w).2.1 =
        done.map (fun p => Event.deployE p a.newImage true) ++
          [Event.deployE pk a.newImage false] ∧
      ∀ q, (deployLoop a o (done ++ pk :: rest) w).1.services q =
        if q ∈ done then some a.newImage else w.services q := by
  intro done
  induction done with
  | nil =>
    intro pk rest w _ hfail
    simp [deployLoop, deployCall, hfail]
  | cons p done ih =>
    intro pk rest w hall hfail
    have hp : o.deployFails p a.newImage = false := hall p (List.mem_cons_self p done)
    have hps : ∀ q ∈ done, o.deployFails q a.newImage = false :=
      fun q hq => hall q (List.mem_cons_of_mem p hq)
    have ihw := ih pk rest (w.setSvc p (some a.newImage)) hps hfail
    refine ⟨?_, ?_, ?_, ?_⟩
    · simp [deployLoop, deployCall, hp, ihw.1]
    · simp [deployLoop, deployCall, hp, ihw.2.1]
    · simp [deployLoop, deployCall, hp, ihw.2.2.1]
    · intro q
      have hq := ihw.2.2.2 q
      by_cases hmem : q ∈ done
      · simp [deployLoop, deployCall, hp, hq, hmem]
      · by_cases hqp : q = p
        · subst hqp
          simp [deployLoop, deployCall, hp, hq, hmem, setSvc_services]
        · simp [deployLoop, deployCall, hp, hq, hmem, hqp, setSvc_services]

end Swarm

namespace Swarm

theorem rollbackStep_services (a : SwarmArgs) (o : Oracles) (w : World) (p q : String) :
    (rollbackStep a o w p).1.services q =
      if q = p then (rollbackVal a o p).getD (w.services p) else w.services q := by
  by_cases hc : p ∈ a.currentProcs
  · cases h : o.deployFails p a.currentImage with
    | true =>
      simp only [rollbackStep, deployCall, rollbackVal, hc, if_true, h, Option.getD_none]
      by_cases hqp : q = p
      · subst hqp; simp
      · simp [hqp]
    | false => simp [rollbackStep, deployCall, rollbackVal, hc, h, setSvc_services]
  · cases h : o.removeFails p with
    | true =>
      simp only [rollbackStep, removeCall, rollbackVal, hc, if_false, h, if_true,
        Option.getD_none]
      by_cases hqp : q = p
      · subst hqp; simp
      · simp [hqp]
    | false => simp [rollbackStep, removeCall, rollbackVal, hc, h, setSvc_services]

theorem rollbackStep_history (a : SwarmArgs) (o : Oracles) (w : World) (p : String) :
    (rollbackStep a o w p).1.history = w.history := by
  by_cases hc : p ∈ a.currentProcs
  · cases h : o.deployFails p a.currentImage with
    | true => simp [rollbackStep, deployCall, hc, h]
    | false => simp [rollbackStep, deployCall, hc, h, setSvc_history]
  · cases h : o.removeFails p with
    | true => simp [rollbackStep, removeCall, hc, h]
    | false => simp [rollbackStep, removeCall, hc, h, setSvc_history]

theorem rollbackStep_event (a : SwarmArgs) (o : Oracles) (w : World) (p : String) :
    (rollbackStep a o w p).2 = rollbackEv a o p := by
  by_cases hc : p ∈ a.currentProcs
  · cases h : o.deployFails p a.currentImage with
    | true => simp [rollbackStep, deployCall, rollbackEv, hc, h]
    | false => simp [rollbackStep, deployCall, rollbackEv, hc, h]
  · cases h : o.removeFails p with
    | true => simp [rollbackStep, removeCall, rollbackEv, hc, h]
    | false => simp [rollbackStep, removeCall, rollbackEv, hc, h]

theorem rollback_events (a : SwarmArgs) (o : Oracles) :
    ∀ (ps : List String) (w : World),
      (rollbackAddedProcesses a o ps w).2 = ps.map (rollbackEv a o) := by
  intro ps
  induction ps with
  | nil => intro w; rfl
  | cons p ps ih =>
    intro w
    simp [rollbackAddedProcesses, ih, rollbackStep_event]

theorem rollback_history (a : SwarmArgs) (o : Oracles) :
    ∀ (ps : List String) (w : World),
      (rollbackAddedProcesses a o ps w).1.history = w.history := by
  intro ps
  induction ps with
  | nil => intro w; rfl
  | cons p ps ih =>
    intro w
    simp [rollbackAddedProcesses, ih, rollbackStep_history]

theorem rollback_services (a : SwarmArgs) (o : Oracles) :
    ∀ (ps : List String) (w : World) (q : String),
      (rollbackAddedProcesses a o ps w).1.services q =
        if q ∈ ps then (rollbackVal a o q).getD (w.services q) else w.services q := by
  intro ps
  induction ps with
  | nil => intro w q; rfl
  | cons p ps ih =>
    intro w q
    have hstep := rollbackStep_services a o w p q
    by_cases hmem : q ∈ ps
    · by_cases hqp : q = p
      · subst hqp
        simp only [rollbackAddedProcesses]
        rw [ih, hstep]
        simp only [hmem, if_true, if_pos rfl, List.mem_cons, true_or]
        cases hv : rollbackVal a o q with
        | none => simp
        | some v => simp
      · simp only [rollbackAddedProcesses]
        rw [ih, hstep]
        simp [hmem, hqp]
    · by_cases hqp : q = p
      · subst hqp
        simp only [rollbackAddedProcesses]
        rw [ih, hstep]
        simp [hmem]
      · simp only [rollbackAddedProcesses]
        rw [ih, hstep]
        simp [hmem, hqp]

theorem removeLoop_history (o : Oracles) :
    ∀ (ps : List String) (w : World), (removeLoop o ps w).1.history = w.history := by
  intro ps
  induction ps with
  | nil => intro w; rfl
  | cons p ps ih =>
    intro w
    cases h : o.removeFails p with
    | true => simp [removeLoop, removeCall, h, ih]
    | false => simp [removeLoop, removeCall, h, ih, setSvc_history]

theorem removeLoop_events (o : Oracles) :
    ∀ (ps : List String) (w : World),
      (removeLoop o ps w).2 = ps.map (fun p => Event.removeE p (! o.removeFails p)) := by
  intro ps
  induction ps with
  | nil => intro w; rfl
  | cons p ps ih =>
    intro w
    cases h : o.removeFails p with
    | true => simp [removeLoop, removeCall, h, ih]
    | false => simp [removeLoop, removeCall, h, ih]

theorem removeLoop_services (o : Oracles) :
    ∀ (ps : List String) (w : World) (q : String),
      (removeLoop o ps w).1.services q =
        if q ∈ ps then (if o.removeFails q then w.services q else none)
        else w.services q := by
  intro ps
  induction ps with
  | nil => intro w q; rfl
  | cons p ps ih =>
    intro w q
    by_cases hqp : q = p
    · subst hqp
      cases h : o.removeFails q with
      | true =>
        simp only [removeLoop, removeCall, h, if_true]
        rw [ih]
        simp [h]
      | false =>
        simp only [removeLoop, removeCall, h, Bool.false_eq_true, if_false]
        rw [ih]
        simp [h, setSvc_services]
    · cases h : o.removeFails p with
      | true =>
        simp only [removeLoop, removeCall, h, if_true]
        rw [ih]
        simp [hqp]
      | false =>
        simp only [removeLoop, removeCall, h, Bool.false_eq_true, if_false]
        rw [ih]
        simp [hqp, setSvc_services]

end Swarm

namespace Swarm

theorem updateServicesForward_ok (a : SwarmArgs) (o : Oracles) (w : World)
    (h : (deployLoop a o (ssort a.newProcs) w).2.2.2 = none) :
    updateServicesForward a o w =
      ⟨(deployLoop a o (ssort a.newProcs) w).1,
       (deployLoop a o (ssort a.newProcs) w).2.1,
       Except.ok (deployLoop a o (ssort a.newProcs) w).2.2.1⟩ := by
  simp only [updateServicesForward, h]

theorem updateServicesForward_err (a : SwarmArgs) (o : Oracles) (w : World) (e : String)
    (h : (deployLoop a o (ssort a.newProcs) w).2.2.2 = some e) :
    updateServicesForward a o w =
      ⟨(rollbackAddedProcesses a o (deployLoop a o (ssort a.newProcs) w).2.2.1
          (deployLoop a o (ssort a.newProcs) w).1).1,
       (deployLoop a o (ssort a.newProcs) w).2.1 ++
         (rollbackAddedProcesses a o (deployLoop a o (ssort a.newProcs) w).2.2.1
           (deployLoop a o (ssort a.newProcs) w).1).2,
       Except.error e⟩ := by
  simp only [updateServicesForward, h]

theorem updateServicesForward_history (a : SwarmArgs) (o : Oracles) (w : World) :
    (updateServicesForward a o w).world.history = w.history := by
  cases hdl : (deployLoop a o (ssort a.newProcs) w).2.2.2 with
  | none =>
    rw [updateServicesForward_ok a o w hdl]
    exact deployLoop_history a o _ w
  | some e =>
    rw [updateServicesForward_err a o w e hdl]
    simp only []
    rw [rollback_history]
    exact deployLoop_history a o _ w

theorem runPipeline_err1 (a : SwarmArgs) (o : Oracles) (w : World) (e : String)
    (h : (updateServicesForward a o w).res = Except.error e) :
    runPipeline a o w =
      ⟨(updateServicesForward a o w).world, (updateServicesForward a o w).events,
       Except.error e⟩ := by
  simp only [runPipeline, h]

theorem runPipeline_appendFail (a : SwarmArgs) (o : Oracles) (w : World) (deployed : List String)
    (h1 : (updateServicesForward a o w).res = Except.ok deployed)
    (h2 : o.appendFails = true) :
    runPipeline a o w =
      ⟨(rollbackAddedProcesses a o deployed (updateServicesForward a o w).world).1,
       (updateServicesForward a o w).events ++ [Event.appendE a.newImage false] ++
         (rollbackAddedProcesses a o deployed (updateServicesForward a o w).world).2,
       Except.error o.appendErr⟩ := by
  simp only [runPipeline, h1, updateImageInDBForward, h2, if_true, updateServicesBackward]

theorem runPipeline_ok (a : SwarmArgs) (o : Oracles) (w : World) (deployed : List String)
    (h1 : (updateServicesForward a o w).res = Except.ok deployed)
    (h2 : o.appendFails = false) :
    runPipeline a o w =
      ⟨(removeOldServicesForward a o
          ⟨(updateServicesForward a o w).world.services,
           a.newImage :: (updateServicesForward a o w).world.history⟩).world,
       (updateServicesForward a o w).events ++ [Event.appendE a.newImage true] ++
         (removeOldServicesForward a o
           ⟨(updateServicesForward a o w).world.services,
            a.newImage :: (updateServicesForward a o w).world.history⟩).events,
       Except.ok ()⟩ := by
  simp only [runPipeline, h1, updateImageInDBForward, h2, Bool.false_eq_true, if_false]

end Swarm

namespace Swarm

/-- Claim C2: in update-services.Forward, processes are deployed in
ascending lexicographic order of process name; if deploying the k-th
process fails, no process beyond the k-th is ever deployed (the external
call trace is exactly the deploy attempts on the first k sorted processes
followed by the rollback calls), each of the first k−1 successfully
deployed processes is redeployed at the current image when the current
image defines it and has its Service removed when it does not, and the
original deployment error is returned after the rollback. -/
theorem updateServices_sorted_rollback_on_failure (a : SwarmArgs) (o : Oracles) (w : World)
    (done : List String) (pk : String) (rest : List String)
    (hsplit : ssort a.newProcs = done ++ pk :: rest)
    (hdone : ∀ p ∈ done, o.deployFails p a.newImage = false)
    (hfail : o.deployFails pk a.newImage = true) :
    List.Sorted (fun s t => s ≤ t) (ssort a.newProcs) ∧
    (updateServicesForward a o w).events =
      done.map (fun p => Event.deployE p a.newImage true) ++
        Event.deployE pk a.newImage false :: done.map (rollbackEv a o) ∧
    (updateServicesForward a o w).res = Except.error (o.deployErr pk a.newImage) ∧
    ∀ q, (updateServicesForward a o w).world.services q =
      if q ∈ done then (rollbackVal a o q).getD (some a.newImage) else w.services q := by
  have hdl := deployLoop_fail a o done pk rest w hdone hfail
  have herr : (deployLoop a o (ssort a.newProcs) w).2.2.2 =
      some (o.deployErr pk a.newImage) := by
    rw [hsplit]; exact hdl.1
  have hrw := updateServicesForward_err a o w _ herr
  refine ⟨ssort_sorted a.newProcs, ?_, ?_, ?_⟩
  · rw [hrw]
    simp only [hsplit]
    rw [hdl.2.2.1, hdl.2.1, rollback_events]
    simp
  · rw [hrw]
  · intro q
    rw [hrw]
    simp only [hsplit]
    rw [rollback_services, hdl.2.1, hdl.2.2.2 q]
    by_cases hm : q ∈ done
    · simp [hm]
    · simp [hm]

/-- Witness for C2 at `failArgs`/`failOracles`/`allImg1World`: the sorted
order is [web, worker]; web deploys, worker fails, web is restored to the
current image "img1" and the deploy error "boom" is returned. -/
theorem updateServices_sorted_rollback_on_failure_witness :
    (updateServicesForward failArgs failOracles allImg1World).res = Except.error "boom" ∧
    (updateServicesForward failArgs failOracles allImg1World).world.services "web" =
      some "img1" := by
  have h := updateServices_sorted_rollback_on_failure failArgs failOracles allImg1World
    ["web"] "worker" [] (by decide) (by decide) (by decide)
  refine ⟨h.2.2.1, ?_⟩
  rw [h.2.2.2 "web"]
  decide

/-- Claim C1 is false as stated: a successful pipeline run does not
guarantee that the running Services equal the new image's process set.
Here every deploy succeeds and the pipeline reports success, yet the
Service of "worker" — a process only the current image declares — survives
because its removal failed (failures in remove-old-services are only
logged), and a stray Service of "stray", declared by neither image,
also survives because remove-old-services only removes old−new. -/
theorem pipeline_success_stale_counterexample :
    (runPipeline shrinkArgs badRemoveOracles strayWorld).res = Except.ok () ∧
    (runPipeline shrinkArgs badRemoveOracles strayWorld).world.services "worker" =
      some "img1" ∧
    (runPipeline shrinkArgs badRemoveOracles strayWorld).world.services "stray" =
      some "img0" ∧
    ¬ "worker" ∈ shrinkArgs.newProcs ∧ ¬ "stray" ∈ shrinkArgs.newProcs := by
  refine ⟨rfl, rfl, rfl, by decide, by decide⟩

/-- Claim C1 (amended): if before the run the app's Services are exactly
the current image's process set, the pipeline completes successfully, and
every removal issued by remove-old-services succeeds, then afterwards the
set of running Services equals exactly the new image's process set. -/
theorem pipeline_success_services_eq_new (a : SwarmArgs) (o : Oracles) (w : World)
    (hpre : ∀ q, (w.services q).isSome ↔ q ∈ a.currentProcs)
    (hok : (runPipeline a o w).res = Except.ok ())
    (hrm : ∀ p ∈ a.currentProcs, p ∉ a.newProcs → o.removeFails p = false) :
    ∀ q, ((runPipeline a o w).world.services q).isSome ↔ q ∈ a.newProcs := by
  cases hdl : (deployLoop a o (ssort a.newProcs) w).2.2.2 with
  | some e =>
    exfalso
    have husf := updateServicesForward_err a o w e hdl
    have hres : (updateServicesForward a o w).res = Except.error e := by rw [husf]
    have hrp := runPipeline_err1 a o w e hres
    rw [hrp] at hok
    exact Except.noConfusion hok
  | none =>
    have husf := updateServicesForward_ok a o w hdl
    have hres : (updateServicesForward a o w).res =
        Except.ok (deployLoop a o (ssort a.newProcs) w).2.2.1 := by rw [husf]
    cases happ : o.appendFails with
    | true =>
      exfalso
      have hrp := runPipeline_appendFail a o w _ hres happ
      rw [hrp] at hok
      exact Except.noConfusion hok
    | false =>
      have hrp := runPipeline_ok a o w _ hres happ
      have hall : ∀ p ∈ ssort a.newProcs, o.deployFails p a.newImage = false :=
        (deployLoop_err_none_iff a o _ w).mp hdl
      have hchar := (deployLoop_ok a o (ssort a.newProcs) w hall).2.2
      have hs1 : ∀ q, (updateServicesForward a o w).world.services q =
          if q ∈ ssort a.newProcs then some a.newImage else w.services q := by
        intro q; rw [husf]; exact hchar q
      intro q
      rw [hrp]
      simp only [removeOldServicesForward]
      rw [removeLoop_services]
      simp only []
      rw [hs1 q]
      by_cases hn : q ∈ a.newProcs
      · have hni : q ∈ ssort a.newProcs := (ssort_mem q _).mpr hn
        have hnm : q ∉ oldMinusNew a := by simp [oldMinusNew, hn]
        simp [hni, hnm, hn]
      · have hni : q ∉ ssort a.newProcs := fun hc => hn ((ssort_mem q _).mp hc)
        by_cases hc : q ∈ a.currentProcs
        · have hom : q ∈ oldMinusNew a := by simp [oldMinusNew, hc, hn]
          have hrf : o.removeFails q = false := hrm q hc hn
          simp [hni, hom, hrf, hn]
        · have hom : q ∉ oldMinusNew a := by simp [oldMinusNew, hc]
          simp [hni, hom, hpre q, hc, hn]

/-- Witness for the amended C1 at `growArgs`/`allOkOracles`/
`webOnlyWorld`: the pre-state matches the current image, the run succeeds,
and afterwards worker (new) runs while stray does not. -/
theorem pipeline_success_services_eq_new_witness :
    (∀ q, ((webOnlyWorld : World).services q).isSome ↔ q ∈ growArgs.currentProcs) ∧
    (runPipeline growArgs allOkOracles webOnlyWorld).res = Except.ok () ∧
    (((runPipeline growArgs allOkOracles webOnlyWorld).world.services "worker").isSome ↔
      "worker" ∈ growArgs.newProcs) ∧
    (((runPipeline growArgs allOkOracles webOnlyWorld).world.services "stray").isSome ↔
      "stray" ∈ growArgs.newProcs) := by
  have hpre : ∀ q, ((webOnlyWorld : World).services q).isSome ↔ q ∈ growArgs.currentProcs := by
    intro q
    by_cases h : q = "web"
    · subst h; decide
    · simp [webOnlyWorld, growArgs, h]
  have h := pipeline_success_services_eq_new growArgs allOkOracles webOnlyWorld hpre rfl
    (by decide)
  exact ⟨hpre, rfl, h "worker", h "stray"⟩

/-- Claim C3: the image-history record is written only after every process
of the new image deployed successfully.  If update-services fails, the
history after the pipeline run equals the history before it; and whenever
the history changed at all, the new image was appended and every new-image
process deployed without failure. -/
theorem imageRecord_only_after_full_deploy (a : SwarmArgs) (o : Oracles) (w : World) :
    ((∃ e, (updateServicesForward a o w).res = Except.error e) →
      (runPipeline a o w).world.history = w.history) ∧
    ((runPipeline a o w).world.history ≠ w.history →
      (runPipeline a o w).world.history = a.newImage :: w.history ∧
      ∀ p ∈ a.newProcs, o.deployFails p a.newImage = false) := by
  cases hdl : (deployLoop a o (ssort a.newProcs) w).2.2.2 with
  | some e =>
    have husf := updateServicesForward_err a o w e hdl
    have hres : (updateServicesForward a o w).res = Except.error e := by rw [husf]
    have hrp := runPipeline_err1 a o w e hres
    have hh : (runPipeline a o w).world.history = w.history := by
      rw [hrp]
      exact updateServicesForward_history a o w
    exact ⟨fun _ => hh, fun hne => absurd hh hne⟩
  | none =>
    have husf := updateServicesForward_ok a o w hdl
    have hres : (updateServicesForward a o w).res =
        Except.ok (deployLoop a o (ssort a.newProcs) w).2.2.1 := by rw [husf]
    have hall : ∀ p ∈ a.newProcs, o.deployFails p a.newImage = false := by
      intro p hp
      exact ((deployLoop_err_none_iff a o _ w).mp hdl) p ((ssort_mem p _).mpr hp)
    constructor
    · rintro ⟨e, he⟩
      rw [hres] at he
      exact Except.noConfusion he
    · intro hne
      cases happ : o.appendFails with
      | true =>
        exfalso
        apply hne
        have hrp := runPipeline_appendFail a o w _ hres happ
        rw [hrp]
        simp only []
        rw [rollback_history]
        exact updateServicesForward_history a o w
      | false =>
        have hrp := runPipeline_ok a o w _ hres happ
        refine ⟨?_, hall⟩
        rw [hrp]
        simp only [removeOldServicesForward]
        rw [removeLoop_history]
        simp only []
        rw [updateServicesForward_history]

/-- Witness for C3 at `apiArgs`/`failApiOracles`/`img8World`: the deploy
of "api" fails, update-services returns the error, and the image history
still reads ["img8"] after the pipeline run. -/
theorem imageRecord_only_after_full_deploy_witness :
    (updateServicesForward apiArgs failApiOracles img8World).res = Except.error "boom" ∧
    (runPipeline apiArgs failApiOracles img8World).world.history = ["img8"] :=
  ⟨rfl, (imageRecord_only_after_full_deploy apiArgs failApiOracles img8World).1 ⟨"boom", rfl⟩⟩

/-- Claim C4: remove-old-services removes the Service of every process in
current−new (the call trace holds one removal per such process, so a
failed removal does not abort the removals after it), a failed removal
leaves that Service untouched, and the step always returns success. -/
theorem removeOldServices_all_removed_and_succeeds (a : SwarmArgs) (o : Oracles) (w : World) :
    (removeOldServicesForward a o w).res = Except.ok () ∧
    (removeOldServicesForward a o w).events =
      (oldMinusNew a).map (fun p => Event.removeE p (! o.removeFails p)) ∧
    ∀ q, (removeOldServicesForward a o w).world.services q =
      if q ∈ oldMinusNew a then (if o.removeFails q then w.services q else none)
      else w.services q := by
  refine ⟨rfl, ?_, ?_⟩
  · simp only [removeOldServicesForward]
    exact removeLoop_events o _ w
  · intro q
    simp only [removeOldServicesForward]
    exact removeLoop_services o _ w q

/-- Claim C9: the restore-or-remove rollback is idempotent — running
`rollbackAddedProcesses` twice over the same recorded process list yields
the same Service state as running it once. -/
theorem rollback_idempotent (a : SwarmArgs) (o : Oracles) (ps : List String) (w : World)
    (q : String) :
    (rollbackAddedProcesses a o ps (rollbackAddedProcesses a o ps w).1).1.services q =
      (rollbackAddedProcesses a o ps w).1.services q := by
  rw [rollback_services, rollback_services]
  by_cases hm : q ∈ ps
  · simp only [hm, if_true]
    cases hv : rollbackVal a o q with
    | none => rfl
    | some v => simp
  · simp [hm]

end Swarm

namespace K8s

/-- Claim C5: when the daemon object already exists, the run is
placement-only, and both the computed affinity annotation map and the
computed affinity equal the existing object's, no cluster API call is
issued and the configuration is left untouched. -/
theorem placementOnly_matching_noop (nspace : String) (old : DaemonSet)
    (config : NodeContainerConfig) (pool : String) (filter : PoolFilter)
    (hann : old.spec.template.metadata.annotations = computedAnns filter)
    (haff : old.spec.template.spec.affinity = computeAffinity filter) :
    deployNodeContainerForCluster nspace (some old) config pool filter true =
      ⟨none, config⟩ := by
  simp [deployNodeContainerForCluster, hann, haff]

/-- Witness for C5 at `sampleDs`/`sampleConfig`/`sampleFilter`: the
existing object's pod-template annotations and affinity already hold the
computed values, so the reconciliation is a no-op. -/
theorem placementOnly_matching_noop_witness :
    deployNodeContainerForCluster "ns" (some sampleDs) sampleConfig "p1" sampleFilter true =
      ⟨none, sampleConfig⟩ :=
  placementOnly_matching_noop "ns" sampleDs sampleConfig "p1" sampleFilter rfl rfl

/-- Claim C6: when the daemon object exists, the run is placement-only,
and the computed annotation map or affinity differs from the existing
object's, exactly one Update call is issued, its object carries the
computed annotation map and affinity in the pod template, and every other
field of the existing object is unchanged. -/
theorem placementOnly_divergent_frame (nspace : String) (old : DaemonSet)
    (config : NodeContainerConfig) (pool : String) (filter : PoolFilter)
    (hdiff : ¬ (old.spec.template.metadata.annotations = computedAnns filter ∧
                old.spec.template.spec.affinity = computeAffinity filter)) :
    ∃ ds,
      deployNodeContainerForCluster nspace (some old) config pool filter true =
        ⟨some (K8sOp.update ds), config⟩ ∧
      ds.metadata = old.metadata ∧
      ds.spec.selector = old.spec.selector ∧
      ds.spec.updateStrategy = old.spec.updateStrategy ∧
      ds.spec.template.metadata.name = old.spec.template.metadata.name ∧
      ds.spec.template.metadata.nspace = old.spec.template.metadata.nspace ∧
      ds.spec.template.metadata.labels = old.spec.template.metadata.labels ∧
      ds.spec.template.spec.volumes = old.spec.template.spec.volumes ∧
      ds.spec.template.spec.restartPolicy = old.spec.template.spec.restartPolicy ∧
      ds.spec.template.spec.hostNetwork = old.spec.template.spec.hostNetwork ∧
      ds.spec.template.spec.containers = old.spec.template.spec.containers ∧
      ds.spec.template.metadata.annotations = computedAnns filter ∧
      ds.spec.template.spec.affinity = computeAffinity filter := by
  refine ⟨{ old with spec := { old.spec with template :=
      { metadata := { old.spec.template.metadata with annotations := computedAnns filter },
        spec := { old.spec.template.spec with affinity := computeAffinity filter } } } },
    ?_, rfl, rfl, rfl, rfl, rfl, rfl, rfl, rfl, rfl, rfl, rfl, rfl⟩
  simp [deployNodeContainerForCluster, hdiff]

/-- Witness for C6 at `sampleDsDivergent` (nil annotation map, so it
diverges from the computed one): an Update call is issued and the object's
metadata is untouched. -/
theorem placementOnly_divergent_frame_witness :
    ∃ ds,
      deployNodeContainerForCluster "ns" (some sampleDsDivergent) sampleConfig "p1"
          sampleFilter true =
        ⟨some (K8sOp.update ds), sampleConfig⟩ ∧
      ds.metadata = sampleDsDivergent.metadata := by
  obtain ⟨ds, h1, h2, _⟩ := placementOnly_divergent_frame "ns" sampleDsDivergent sampleConfig
    "p1" sampleFilter (by decide)
  exact ⟨ds, h1, h2⟩

/-- Claim C7: the computed node-selection requirement uses operator
"not in" over Exclude when Exclude is non-empty and otherwise "in" over
Include; the affinity rule exists exactly when the chosen value set is
non-empty, and then consists of exactly the computed requirement; the
serialized annotation entry exists exactly when the affinity rule does. -/
theorem nodeReq_affinity_construction (filter : PoolFilter) :
    (filter.Exclude ≠ [] →
      computeNodeReq filter =
        ⟨labelNodePool, NodeSelectorOperator.opNotIn, filter.Exclude⟩) ∧
    (filter.Exclude = [] →
      computeNodeReq filter =
        ⟨labelNodePool, NodeSelectorOperator.opIn, filter.Include⟩) ∧
    ((computeAffinity filter).isSome ↔ (computeNodeReq filter).values ≠ []) ∧
    (∀ aff, computeAffinity filter = some aff →
      aff = ⟨some ⟨some ⟨[⟨[computeNodeReq filter]⟩]⟩⟩⟩) ∧
    (computeAffinity filter = none → computedAnns filter = some []) ∧
    (∀ aff, computeAffinity filter = some aff →
      computedAnns filter = some [(alphaAffinityKey, marshalAffinity aff)]) := by
  refine ⟨?_, ?_, ?_, ?_, ?_, ?_⟩
  · intro h
    simp only [computeNodeReq, gt_iff_lt, List.length_pos, if_pos h]
  · intro h
    simp [computeNodeReq, h]
  · by_cases h : (computeNodeReq filter).values = []
    · simp [computeAffinity, h]
    · simp [computeAffinity, h, List.length_eq_zero]
  · intro aff haff
    by_cases h : (computeNodeReq filter).values = []
    · simp [computeAffinity, h] at haff
    · simp only [computeAffinity, ne_eq, List.length_eq_zero, h, not_false_iff,
        if_pos, Option.some_inj] at haff
      exact haff.symm
  · intro h
    simp [computedAnns, h]
  · intro aff haff
    simp [computedAnns, haff]

/-- Witness for C7: a non-empty Exclude yields "not in" over Exclude, an
empty Exclude yields "in" over Include, and an empty chosen value set
yields the empty (affinity-free) annotation map. -/
theorem nodeReq_affinity_construction_witness :
    computeNodeReq ⟨[], ["p1"]⟩ =
      ⟨labelNodePool, NodeSelectorOperator.opNotIn, ["p1"]⟩ ∧
    computeNodeReq ⟨["p2"], []⟩ =
      ⟨labelNodePool, NodeSelectorOperator.opIn, ["p2"]⟩ ∧
    computedAnns ⟨[], []⟩ = some [] := by
  refine ⟨(nodeReq_affinity_construction ⟨[], ["p1"]⟩).1 (by decide),
          (nodeReq_affinity_construction ⟨["p2"], []⟩).2.1 (by decide),
          (nodeReq_affinity_construction ⟨[], []⟩).2.2.2.2.1 (by decide)⟩

/-- Claim C8 fails on the code: on the full-reconciliation path the
function assigns three extra bind strings to the caller's configuration
(`config.HostConfig.Binds = append(...)` at nodecontainer.go:107) whenever
the config carries the default system-monitor name, so the input
configuration is mutated: its bind list grows by `extraBsBinds` on every
such call (a configuration with any other name is left unchanged). -/
theorem bsDefault_config_mutated :
    (deployNodeContainerForCluster "ns" none bsSampleConfig "p1" sampleFilter
        false).configAfter.HostConfig.Binds = ["/a:/a:rw"] ++ extraBsBinds ∧
    ¬ (["/a:/a:rw"] ++ extraBsBinds = bsSampleConfig.HostConfig.Binds) ∧
    (deployNodeContainerForCluster "ns" none sampleConfig "p1" sampleFilter
        false).configAfter = sampleConfig := by
  refine ⟨rfl, by decide, rfl⟩

end K8s

namespace Docker

/-- Claim C10: for each of the four failure causes — the inspect call
fails, the output does not unmarshal into a JSON object, the
NetworkSettings field is absent or null, the resolved address is the empty
string — `container.ip()` returns an error and never panics, and all four
errors share the `errors.errorString` kind while carrying pairwise
distinct messages. -/
theorem ip_four_failure_causes (bin e : String) (fields ns : List (String × JVal)) :
    containerIp (Except.ok bin) (Except.error e) =
      IpResult.err errorStringKind msgInspect ∧
    containerIp (Except.ok bin) (Except.ok none) =
      IpResult.err errorStringKind msgParse ∧
    (fields.lookup "NetworkSettings" = none →
      containerIp (Except.ok bin) (Except.ok (some fields)) =
        IpResult.err errorStringKind msgMissingNS) ∧
    (fields.lookup "NetworkSettings" = some JVal.null →
      containerIp (Except.ok bin) (Except.ok (some fields)) =
        IpResult.err errorStringKind msgMissingNS) ∧
    (fields.lookup "NetworkSettings" = some (JVal.obj ns) →
      ns.lookup "IpAddress" = some (JVal.str "") →
      containerIp (Except.ok bin) (Except.ok (some fields)) =
        IpResult.err errorStringKind msgEmpty) ∧
    (∀ k m r, IpResult.err k m ≠ IpResult.panicked r) ∧
    (msgInspect ≠ msgParse ∧ msgInspect ≠ msgMissingNS ∧ msgInspect ≠ msgEmpty ∧
     msgParse ≠ msgMissingNS ∧ msgParse ≠ msgEmpty ∧ msgMissingNS ≠ msgEmpty) := by
  refine ⟨rfl, rfl, ?_, ?_, ?_, ?_, by decide⟩
  · intro h
    simp [containerIp, h]
  · intro h
    simp [containerIp, h]
  · intro h1 h2
    simp [containerIp, h1, h2]
  · intro k m r h
    exact IpResult.noConfusion h

/-- Witness for C10: a decoded object without NetworkSettings yields the
missing-NetworkSettings error; an object whose NetworkSettings carries an
empty IpAddress string yields the empty-address error. -/
theorem ip_four_failure_causes_witness :
    containerIp (Except.ok "docker") (Except.ok (some [("Config", JVal.other)])) =
      IpResult.err errorStringKind msgMissingNS ∧
    containerIp (Except.ok "docker")
        (Except.ok (some [("NetworkSettings", JVal.obj [("IpAddress", JVal.str "")])])) =
      IpResult.err errorStringKind msgEmpty := by
  refine ⟨(ip_four_failure_causes "docker" "x" [("Config", JVal.other)] []).2.2.1 rfl,
          (ip_four_failure_causes "docker" "x"
             [("NetworkSettings", JVal.obj [("IpAddress", JVal.str "")])]
             [("IpAddress", JVal.str "")]).2.2.2.2.1 rfl rfl⟩

end Docker
